import Mathlib

/-!
Verification of the ORAS artifact provider
(`pkg/seeder/artifacts/oras/oras_provider.go` of the das-boot repository).

The development shallowly embeds the provider's pure logic:

* the Repository Name computation of `Get` (`path.Join` of the registry
  URL's path with the artifact name, followed by `strings.TrimLeft` of
  leading `/`), including a faithful translation of Go's `path.Clean`
  algorithm (Go standard library `path/path.go`), which `path.Join`
  applies to the joined string;
* the control flow of `Get` (repository resolution, temporary file-store
  creation, deferred cleanup, graph copy, successor selection, fetch) as a
  pure function of an environment that supplies the outcomes of the
  external effects (registry, file system, ORAS library calls);
* the constructor `Provider` and its credential callback `creds`;
* `orasReadCloser.Close` together with the semantics of Go's
  `os.RemoveAll` (removing a non-existent path yields a nil error).

External library calls (oras-go, net/url, the file store) are modelled as
environment parameters recording only their success/failure and results,
exactly at the granularity the provider's own code observes.
-/

/-! ## Go `path.Clean` (Go standard library, `path/path.go`)

`path.Join` in Go joins the non-empty elements with `/` and applies
`Clean`.  `Clean` is an imperative loop over the byte string with a
lazily-written output buffer; we translate it with the output buffer kept
in reverse order (`out`), the read cursor represented by the remaining
input list, and `dotdot` the length of the output prefix protected from
`..` backtracking. -/

/-- `dropWhile` never lengthens a list (used for termination of the
`Clean` loop). -/
theorem lengthDropWhileLe (p : Char → Bool) : ∀ l : List Char, (l.dropWhile p).length ≤ l.length := by
  intro l
  induction l with
  | nil => simp [List.dropWhile]
  | cons c t ih =>
    by_cases h : p c
    · simpa [List.dropWhile, h] using Nat.le_succ_of_le ih
    · simp [List.dropWhile, h]

/-- Backtracking step of Go `path.Clean` for a `..` element:
`out.w--; for out.w > dotdot && out.index(out.w) != '/' { out.w-- }`.
`out` is the output buffer in reverse order; each recursive step pops the
character the Go loop just stepped over. -/
def popElem (out : List Char) (dotdot : Nat) : List Char :=
  match out with
  | [] => []
  | c :: rest => if rest.length > dotdot ∧ c ≠ '/' then popElem rest dotdot else rest

/-- Appending a `..` element in Go `path.Clean` (non-rooted case):
`if out.w > 0 { out.append('/') }; out.append('.'); out.append('.')`,
on the reversed buffer. -/
def dotdotPush (out : List Char) : List Char :=
  if out.length > 0 then '.' :: '.' :: '/' :: out else '.' :: '.' :: out

/-- The separator prepended before copying a path element in Go
`path.Clean`: `if rooted && out.w != 1 || !rooted && out.w != 0 {
out.append('/') }`, on the reversed buffer. -/
def elemSep (rooted : Bool) (out : List Char) : List Char :=
  if (rooted = true ∧ out.length ≠ 1) ∨ (rooted = false ∧ out.length ≠ 0) then '/' :: out
  else out

/-- The main loop of Go `path.Clean` (`for r < n { switch { ... } }`),
translated case for case.  `out` is the reversed output buffer. -/
def cleanCore (rooted : Bool) : List Char → List Char → Nat → List Char
  | [], out, _ => out
  | c :: r, out, dotdot =>
    if c = '/' then
      -- empty path element
      cleanCore rooted r out dotdot
    else if c = '.' ∧ (r = [] ∨ r.head? = some '/') then
      -- `.` element
      cleanCore rooted r out dotdot
    else if c = '.' ∧ r.head? = some '.' ∧ (r.tail = [] ∨ r.tail.head? = some '/') then
      -- `..` element
      (if out.length > dotdot then
        cleanCore rooted r.tail (popElem out dotdot) dotdot
      else if rooted = false then
        cleanCore rooted r.tail (dotdotPush out) (dotdotPush out).length
      else
        cleanCore rooted r.tail out dotdot)
    else
      -- real path element: add slash if needed, then copy the element
      cleanCore rooted (r.dropWhile (fun ch => ch ≠ '/'))
        ((r.takeWhile (fun ch => ch ≠ '/')).reverse ++ c :: elemSep rooted out) dotdot
  termination_by l _ _ => l.length
  decreasing_by
  · simp
  · simp
  · simp [List.length_tail]; omega
  · simp [List.length_tail]; omega
  · simp [List.length_tail]; omega
  · exact Nat.lt_succ_of_le (lengthDropWhileLe _ _)

/-- Go `path.Clean` on a character list: rootedness check, initial buffer,
and the final `if out.w == 0 { return "." }`. -/
def cleanList (l : List Char) : List Char :=
  match l with
  | [] => ['.']
  | c :: t =>
    if c = '/' then (cleanCore true t ['/'] 1).reverse
    else
      let r := cleanCore false (c :: t) [] 0
      if r = [] then ['.'] else r.reverse

/-- Go `path.Clean`. -/
def goPathClean (p : String) : String :=
  String.mk (cleanList p.toList)

/-- Go `path.Join` restricted to two elements, as called at
`oras_provider.go:161` (`path.Join(op.url.Path, artifact)`): skip empty
elements, join with `/`, and `Clean` the result. -/
def goPathJoin (a b : String) : String :=
  if a = "" ∧ b = "" then ""
  else if a = "" then goPathClean b
  else goPathClean (a ++ "/" ++ b)

/-- Go `strings.TrimLeft(s, "/")` (`oras_provider.go:162`). -/
def trimLeftSlash (s : String) : String :=
  String.mk (s.toList.dropWhile (fun c => c = '/'))

/-- The Repository Name computed by `Get` (`oras_provider.go:161-162`):
`repoName := path.Join(op.url.Path, artifact); repoName =
strings.TrimLeft(repoName, "/")`. -/
def repoName (urlPath artifact : String) : String :=
  trimLeftSlash (goPathJoin urlPath artifact)

/-! ### Lemmas about the `Clean` loop

The central lemma below (`cleanCore_collapse`) states that the loop
ignores a doubled `/`: this is what makes `path.Join(p, "/"+a)` and
`path.Join(p, a)` agree for a non-empty `p`. -/

theorem headAppendSlash (rl xs : List Char) :
    (rl ++ '/' :: xs).head? = some (rl.headD '/') := by
  cases rl <;> simp

theorem dropWhileAppendSlash (p : Char → Bool) (hp : p '/' = false) :
    ∀ (rl xs : List Char), (rl ++ '/' :: xs).dropWhile p = rl.dropWhile p ++ '/' :: xs := by
  intro rl xs
  induction rl with
  | nil => simp [List.dropWhile, hp]
  | cons x t ih =>
    by_cases h : p x
    · simp only [List.cons_append, List.dropWhile_cons_of_pos h, ih]
    · simp only [List.cons_append, List.dropWhile_cons_of_neg h]

theorem takeWhileAppendSlash (p : Char → Bool) (hp : p '/' = false) :
    ∀ (rl xs : List Char), (rl ++ '/' :: xs).takeWhile p = rl.takeWhile p := by
  intro rl xs
  induction rl with
  | nil => simp [List.takeWhile, hp]
  | cons x t ih =>
    by_cases h : p x
    · simp only [List.cons_append, List.takeWhile_cons_of_pos h, ih]
    · simp only [List.cons_append, List.takeWhile_cons_of_neg h]

theorem cond2Iff (c : Char) (rl xs ys : List Char) :
    (c = '.' ∧ (rl ++ '/' :: xs = [] ∨ (rl ++ '/' :: xs).head? = some '/')) ↔
      (c = '.' ∧ (rl ++ '/' :: ys = [] ∨ (rl ++ '/' :: ys).head? = some '/')) := by
  simp [headAppendSlash]

theorem cond3Iff (c : Char) (rl xs ys : List Char) :
    (c = '.' ∧ (rl ++ '/' :: xs).head? = some '.' ∧
        ((rl ++ '/' :: xs).tail = [] ∨ (rl ++ '/' :: xs).tail.head? = some '/')) ↔
      (c = '.' ∧ (rl ++ '/' :: ys).head? = some '.' ∧
        ((rl ++ '/' :: ys).tail = [] ∨ (rl ++ '/' :: ys).tail.head? = some '/')) := by
  cases rl with
  | nil => simp
  | cons x t => simp [headAppendSlash]

/-- The `Clean` loop is insensitive to a doubled separator anywhere in its
remaining input: everything before the doubled separator is processed
identically, and the extra empty path element is skipped. -/
theorem cleanCore_collapse (rooted : Bool) (rest : List Char) :
    ∀ (n : Nat) (l out : List Char) (dd : Nat), l.length ≤ n →
      cleanCore rooted (l ++ '/' :: '/' :: rest) out dd
        = cleanCore rooted (l ++ '/' :: rest) out dd := by
  intro n
  induction n with
  | zero =>
    intro l out dd hl
    have hnil : l = [] := by
      cases l with
      | nil => rfl
      | cons a b => simp at hl
    subst hnil
    simp [cleanCore]
  | succ n ih =>
    intro l out dd hl
    cases l with
    | nil => simp [cleanCore]
    | cons c rl =>
      have hrl : rl.length ≤ n := by
        simp only [List.length_cons] at hl
        omega
      simp only [List.cons_append]
      by_cases h1 : c = '/'
      · rw [cleanCore, cleanCore, if_pos h1, if_pos h1]
        exact ih rl out dd hrl
      · by_cases h2 : c = '.' ∧ (rl ++ '/' :: '/' :: rest = [] ∨ (rl ++ '/' :: '/' :: rest).head? = some '/')
        · rw [cleanCore, cleanCore, if_neg h1, if_neg h1, if_pos h2,
            if_pos ((cond2Iff c rl ('/' :: rest) rest).mp h2)]
          exact ih rl out dd hrl
        · by_cases h3 : c = '.' ∧ (rl ++ '/' :: '/' :: rest).head? = some '.' ∧
              ((rl ++ '/' :: '/' :: rest).tail = [] ∨ (rl ++ '/' :: '/' :: rest).tail.head? = some '/')
          · -- the `..` element case: the lookahead forces `rl` to be non-empty
            have hne : rl ≠ [] := by
              intro hemp
              subst hemp
              simp at h3
            obtain ⟨x, t, rfl⟩ : ∃ x t, rl = x :: t := by
              cases rl with
              | nil => exact absurd rfl hne
              | cons x t => exact ⟨x, t, rfl⟩
            have ht : t.length ≤ n := by
              simp only [List.length_cons] at hrl
              omega
            rw [cleanCore, cleanCore, if_neg h1, if_neg h1,
              if_neg (fun hx => h2 ((cond2Iff c (x :: t) rest ('/' :: rest)).mp hx)),
              if_neg h2, if_pos h3, if_pos ((cond3Iff c (x :: t) ('/' :: rest) rest).mp h3)]
            simp only [List.cons_append, List.tail_cons]
            by_cases hpop : out.length > dd
            · rw [if_pos hpop, if_pos hpop]
              exact ih t (popElem out dd) dd ht
            · rw [if_neg hpop, if_neg hpop]
              by_cases hro : rooted = false
              · rw [if_pos hro, if_pos hro]
                exact ih t (dotdotPush out) (dotdotPush out).length ht
              · rw [if_neg hro, if_neg hro]
                exact ih t out dd ht
          · -- a real path element: it is entirely taken from `rl`
            have hp : (fun ch : Char => decide (ch ≠ '/')) '/' = false := by decide
            rw [cleanCore, cleanCore, if_neg h1, if_neg h1,
              if_neg (fun hx => h2 ((cond2Iff c rl rest ('/' :: rest)).mp hx)),
              if_neg h2,
              if_neg (fun hx => h3 ((cond3Iff c rl rest ('/' :: rest)).mp hx)),
              if_neg h3]
            rw [dropWhileAppendSlash _ hp, dropWhileAppendSlash _ hp,
              takeWhileAppendSlash _ hp, takeWhileAppendSlash _ hp]
            exact ih (rl.dropWhile (fun ch => ch ≠ '/'))
              ((rl.takeWhile (fun ch => ch ≠ '/')).reverse ++ c :: elemSep rooted out) dd
              (Nat.le_trans (lengthDropWhileLe _ rl) hrl)

example : goPathClean "prefix/../other" = "other" := by simp [goPathClean, cleanList, cleanCore, popElem, elemSep]
example : goPathClean "/foo" = "/foo" := by simp [goPathClean, cleanList, cleanCore, popElem, elemSep]
example : goPathClean "a//b" = "a/b" := by simp [goPathClean, cleanList, cleanCore, popElem, elemSep]
example : goPathClean "/../x" = "/x" := by simp [goPathClean, cleanList, cleanCore, popElem, elemSep]
example : goPathClean "../x" = "../x" := by simp [goPathClean, cleanList, cleanCore, popElem, elemSep, dotdotPush]
example : goPathClean "x/.." = "." := by simp [goPathClean, cleanList, cleanCore, popElem, elemSep]
example : repoName "" "/foo" = "foo" := by simp [repoName, goPathJoin, goPathClean, cleanList, cleanCore, popElem, elemSep, trimLeftSlash]
example : repoName "dasboot" "stage0" = "dasboot/stage0" := by simp [repoName, goPathJoin, goPathClean, cleanList, cleanCore, popElem, elemSep, trimLeftSlash]

theorem toListAppend (s t : String) : (s ++ t).toList = s.toList ++ t.toList := by
  cases s
  cases t
  rfl

theorem slashToList : ("/" : String).toList = ['/'] := by decide

/-- `cleanList` is insensitive to a doubled separator: lifting
`cleanCore_collapse` over the rootedness analysis. -/
theorem cleanListCollapse (l aL : List Char) :
    cleanList (l ++ '/' :: '/' :: aL) = cleanList (l ++ '/' :: aL) := by
  cases l with
  | nil =>
    simp only [List.nil_append, cleanList]
    simp [cleanCore]
  | cons c cs =>
    simp only [List.cons_append, cleanList]
    by_cases hc : c = '/'
    · rw [if_pos hc, if_pos hc,
        cleanCore_collapse true aL cs.length cs ['/'] 1 (Nat.le_refl _)]
    · rw [if_neg hc, if_neg hc]
      have h := cleanCore_collapse false aL (c :: cs).length (c :: cs) [] 0 (Nat.le_refl _)
      simp only [List.cons_append] at h
      rw [h]

theorem goPathCleanCollapse (p a : String) :
    goPathClean (p ++ "/" ++ ("/" ++ a)) = goPathClean (p ++ "/" ++ a) := by
  unfold goPathClean
  have h1 : (p ++ "/" ++ ("/" ++ a)).toList = p.toList ++ '/' :: '/' :: a.toList := by
    simp [toListAppend, slashToList]
  have h2 : (p ++ "/" ++ a).toList = p.toList ++ '/' :: a.toList := by
    simp [toListAppend, slashToList]
  rw [h1, h2, cleanListCollapse]

/-- When the registry URL path is non-empty, a leading `/` on the artifact
name is absorbed by `path.Join`'s `Clean` (collapsed double separator), so
the computed Repository Name is unchanged. -/
theorem repoNameLeadingSlashDrop (p a : String) (hp : p ≠ "") :
    repoName p ("/" ++ a) = repoName p a := by
  unfold repoName goPathJoin
  rw [if_neg (show ¬(p = "" ∧ "/" ++ a = "") from fun h => hp h.1), if_neg hp,
    if_neg (show ¬(p = "" ∧ a = "") from fun h => hp h.1), if_neg hp,
    goPathCleanCollapse]

theorem trimLeftNoSlashHead (l : List Char) :
    (l.dropWhile (fun c => c = '/')).head? ≠ some '/' := by
  induction l with
  | nil => simp [List.dropWhile]
  | cons c t ih =>
    by_cases h : c = '/'
    · rw [List.dropWhile_cons_of_pos (by simp [h])]
      exact ih
    · rw [List.dropWhile_cons_of_neg (by simp [h])]
      simp [h]

/-- Claim C7 (counterexample): with an empty registry URL path and the
artifact name `../x`, a leading separator changes the computed Repository
Name.  `path.Join("", "/../x") = Clean("/../x") = "/x"` (a rooted `..` is
discarded), which trims to `x`, while `path.Join("", "../x") =
Clean("../x") = "../x"` keeps the `..`.  So `Get("/../x")` and
`Get("../x")` resolve to different repository references, refuting the
universally quantified claim. -/
theorem C7_counterexample :
    repoName "" "/../x" = "x" ∧ repoName "" "../x" = "../x" ∧
    repoName "" "/../x" ≠ repoName "" "../x" := by
  have h1 : repoName "" "/../x" = "x" := by
    simp [repoName, goPathJoin, goPathClean, cleanList, cleanCore, popElem, elemSep,
      dotdotPush, trimLeftSlash]
  have h2 : repoName "" "../x" = "../x" := by
    simp [repoName, goPathJoin, goPathClean, cleanList, cleanCore, popElem, elemSep,
      dotdotPush, trimLeftSlash]
  refine ⟨h1, h2, ?_⟩
  rw [h1, h2]
  decide

/-- Claim C7 (amended): for every registry path and artifact name the
Repository Name computed by `Get` (`oras_provider.go:161-162`) never
begins with a path separator; and whenever the registry URL path is
non-empty, an artifact name with a leading separator yields the same
Repository Name as the same name without it.  For an empty registry URL
path the latter also holds for names such as `foo` that do not climb above
the root (so `Get("/foo")` and `Get("foo")` always resolve to the same
repository reference), but not for names with leading `..` elements
(see the counterexample). -/
theorem C7_repo_name_normalization :
    (∀ p a : String, (repoName p a).toList.head? ≠ some '/') ∧
    (∀ p a : String, p ≠ "" → repoName p ("/" ++ a) = repoName p a) ∧
    (∀ p : String, repoName p "/foo" = repoName p "foo") := by
  refine ⟨fun p a => trimLeftNoSlashHead _, fun p a hp => repoNameLeadingSlashDrop p a hp,
    fun p => ?_⟩
  by_cases hp : p = ""
  · subst hp
    have h1 : repoName "" "/foo" = "foo" := by
      simp [repoName, goPathJoin, goPathClean, cleanList, cleanCore, popElem, elemSep,
        trimLeftSlash]
    have h2 : repoName "" "foo" = "foo" := by
      simp [repoName, goPathJoin, goPathClean, cleanList, cleanCore, popElem, elemSep,
        trimLeftSlash]
    rw [h1, h2]
  · have h : ("/" ++ "foo" : String) = "/foo" := by decide
    rw [← h]
    exact repoNameLeadingSlashDrop p "foo" hp

/-- Witness for C7: at the concrete registry path `x`, the Repository Name
of `/foo` has no leading separator and agrees with that of `foo`. -/
theorem C7_witness :
    (repoName "x" "/foo").toList.head? ≠ some '/' ∧
    repoName "x" ("/" ++ "foo") = repoName "x" "foo" :=
  ⟨C7_repo_name_normalization.1 "x" "/foo",
    C7_repo_name_normalization.2.1 "x" "foo" (by decide)⟩

/-- Claim C10: the Repository Name computation is pure join-and-strip with
no validation: the artifact name `../other` joined to the registry path
`prefix` cleans to `other`, which is outside the configured `prefix`
repository namespace (compare the well-behaved name `other`, which maps to
`prefix/other`). -/
theorem C10_dotdot_escape :
    repoName "prefix" "../other" = "other" ∧
    repoName "prefix" "other" = "prefix/other" ∧
    (repoName "prefix" "../other").toList.take 6 ≠ ("prefix" : String).toList := by
  have h1 : repoName "prefix" "../other" = "other" := by
    simp [repoName, goPathJoin, goPathClean, cleanList, cleanCore, popElem, elemSep,
      dotdotPush, trimLeftSlash]
  have h2 : repoName "prefix" "other" = "prefix/other" := by
    simp [repoName, goPathJoin, goPathClean, cleanList, cleanCore, popElem, elemSep,
      trimLeftSlash]
  refine ⟨h1, h2, ?_⟩
  rw [h1]
  decide

/-! ## The `Get` fetch pipeline (`oras_provider.go:155-233`)

`Get` performs a fixed sequence of effectful steps.  We model each
external call by an environment field recording its outcome exactly at
the granularity the provider observes, and record the provider's own
observable actions (logging, temporary-directory creation and removal,
fetches) as an event trace.  The deferred cleanup installed at
`oras_provider.go:178-183` removes the temporary file store if and only
if the named return value `rc` is `nil` when `Get` returns. -/

/-- OCI content descriptor (`v1.Descriptor`), with the fields the provider
reads. -/
structure Descriptor where
  mediaType : String
  digest : String
  size : Nat
deriving DecidableEq

/-- `v1.MediaTypeImageLayer` from the OCI image spec, the constant
compared against at `oras_provider.go:215`. -/
def mediaTypeImageLayer : String := "application/vnd.oci.image.layer.v1.tar"

/-- Outcomes of the external calls made by one `Get` invocation:
`registry.Repository` (per repository name), `os.MkdirTemp` (the fresh
unique directory, or failure), `file.New`, `oras.Copy`,
`content.Successors`, and `fileStore.Fetch` (per descriptor). -/
structure GetEnv where
  repositoryOk : String → Bool
  mkdirTemp : Option String
  fileNew : Bool
  copyOk : Bool
  successors : Option (List Descriptor)
  fetchOk : Descriptor → Bool

/-- Observable actions of one `Get` invocation, in program order. -/
inductive GetEvent where
  | repoResolve (repo : String)
  | logError (msg : String)
  | mkTempDir (path : String)
  | copyGraph (repo : String)
  | fetchNode (d : Descriptor)
  | logDebug (msg : String)
  | removeDirTree (path : String)
deriving DecidableEq

/-- The stream `Get` hands back: either the bare `io.ReadCloser` returned
by `fileStore.Fetch` (single-successor branch, `oras_provider.go:211`), or
that stream wrapped in an `orasReadCloser` that owns the temporary
file-store path (multi-successor branch, `oras_provider.go:222-225`). -/
inductive Handle where
  | raw (d : Descriptor)
  | wrapped (fileStorePath : String) (d : Descriptor)
deriving DecidableEq

/-- Result of one `Get` invocation: the returned stream (or `none` for
"artifact not found"/any failure) and the event trace. -/
structure GetOutcome where
  result : Option Handle
  events : List GetEvent
deriving DecidableEq

/-- `(*orasProvider).Get`, translated branch for branch.  The trailing
`removeDirTree` events are exactly the deferred cleanup: they occur on a
branch precisely when the branch returns `nil` after the temporary
directory was created. -/
def goGet (env : GetEnv) (urlPath artifact : String) : GetOutcome :=
  let rn := repoName urlPath artifact
  if env.repositoryOk rn = false then
    { result := none
      events := [.repoResolve rn, .logError "oras: getting repository reference failed"] }
  else
    match env.mkdirTemp with
    | none =>
      { result := none
        events := [.repoResolve rn,
          .logError "oras: failed to create temporary directory for file store"] }
    | some fsp =>
      let pre : List GetEvent := [.repoResolve rn, .mkTempDir fsp]
      let cleanup : List GetEvent :=
        [.logDebug "oras: cleaning up temporary file store path", .removeDirTree fsp]
      if env.fileNew = false then
        { result := none
          events := pre ++ [.logError "oras: failed to create file store"] ++ cleanup }
      else if env.copyOk = false then
        { result := none
          events := pre ++ [.copyGraph rn,
            .logError "oras: copying artifact into memory failed"] ++ cleanup }
      else
        match env.successors with
        | none =>
          { result := none
            events := pre ++ [.copyGraph rn,
              .logError "oras: fetching successors failed"] ++ cleanup }
        | some nodes =>
          match nodes with
          | [d] =>
            -- `len(nodes) == 1`: the node is returned unconditionally,
            -- and the stream is NOT wrapped in an `orasReadCloser`
            if env.fetchOk d then
              { result := some (.raw d)
                events := pre ++ [.copyGraph rn, .fetchNode d] }
            else
              { result := none
                events := pre ++ [.copyGraph rn, .fetchNode d,
                  .logError "oras: fetch layer content failed"] ++ cleanup }
          | _ =>
            match nodes.find? (fun d => d.mediaType == mediaTypeImageLayer) with
            | some d =>
              if env.fetchOk d then
                { result := some (.wrapped fsp d)
                  events := pre ++ [.copyGraph rn, .fetchNode d] }
              else
                { result := none
                  events := pre ++ [.copyGraph rn, .fetchNode d,
                    .logError "oras: fetch layer content failed"] ++ cleanup }
            | none =>
              { result := none
                events := pre ++ [.copyGraph rn,
                  .logError "oras: no image layers in artifact"] ++ cleanup }

/-- The temporary-directory removals performed inside one `Get` call. -/
def removalsOf (events : List GetEvent) : List String :=
  events.filterMap fun e =>
    match e with
    | .removeDirTree p => some p
    | _ => none

/-- The directory removals performed by closing the returned stream: the
bare `fileStore.Fetch` stream removes nothing on `Close`, while
`orasReadCloser.Close` removes its owned file-store path
(`oras_provider.go:241-246`). -/
def handleCloseRemoves : Handle → List String
  | .raw _ => []
  | .wrapped p _ => [p]

/-- `List.find?` returns the first element satisfying the predicate: the
list splits into a prefix of non-matching elements, the found element,
and a remainder. -/
theorem findFirstSplit {α : Type} (p : α → Bool) :
    ∀ (l : List α) (a : α), l.find? p = some a →
      p a = true ∧ ∃ l1 l2, l = l1 ++ a :: l2 ∧ ∀ b ∈ l1, p b = false := by
  intro l
  induction l with
  | nil =>
    intro a h
    simp [List.find?] at h
  | cons x t ih =>
    intro a h
    by_cases hx : p x = true
    · rw [List.find?_cons_of_pos _ hx] at h
      obtain rfl : x = a := Option.some.inj h
      exact ⟨hx, [], t, rfl, by simp⟩
    · rw [List.find?_cons_of_neg _ (by simpa using hx)] at h
      obtain ⟨hpa, l1, l2, heq, hall⟩ := ih a h
      refine ⟨hpa, x :: l1, l2, by rw [heq, List.cons_append], ?_⟩
      intro b hb
      rcases List.mem_cons.mp hb with hb | hb
      · subst hb
        exact Bool.eq_false_iff.mpr hx
      · exact hall b hb

/-! ### Concrete fetch environments used as evaluation inputs -/

/-- A successor descriptor whose media type is NOT the image-layer
constant. -/
def descConfig : Descriptor :=
  { mediaType := "application/vnd.dasboot.config.v1+json"
    digest := "sha256:1111", size := 42 }

/-- A manifest-typed successor descriptor. -/
def descManifest : Descriptor :=
  { mediaType := "application/vnd.oci.image.manifest.v1+json"
    digest := "sha256:2222", size := 7 }

/-- An image-layer successor descriptor. -/
def descLayer : Descriptor :=
  { mediaType := "application/vnd.oci.image.layer.v1.tar"
    digest := "sha256:3333", size := 100 }

/-- A fully successful fetch whose copied graph has exactly one successor
descriptor. -/
def envSingle : GetEnv :=
  { repositoryOk := fun _ => true
    mkdirTemp := some "/var/tmp/oras-provider-file-store-42"
    fileNew := true
    copyOk := true
    successors := some [descConfig]
    fetchOk := fun _ => true }

/-- A fully successful fetch whose copied graph has three successor
descriptors, the second being the only image layer. -/
def envMulti : GetEnv :=
  { repositoryOk := fun _ => true
    mkdirTemp := some "/var/tmp/oras-provider-file-store-43"
    fileNew := true
    copyOk := true
    successors := some [descManifest, descLayer, descConfig]
    fetchOk := fun _ => true }

/-- An environment whose registry rejects the computed repository name. -/
def envReject : GetEnv :=
  { repositoryOk := fun _ => false
    mkdirTemp := none
    fileNew := false
    copyOk := false
    successors := none
    fetchOk := fun _ => false }

/-- Claim C1 (code bug): on the successful single-successor path, `Get`
returns the bare `fileStore.Fetch` stream (`oras_provider.go:206-211`)
without wrapping it in an `orasReadCloser`.  The deferred cleanup
(`oras_provider.go:178-183`) does not fire because the named return value
is non-nil, and closing the bare stream does not remove the file-store
directory either (only `orasReadCloser.Close` at `oras_provider.go:241-246`
does).  Hence the Temporary File Store created by this call is removed
zero times, not exactly once: it leaks.  The multi-successor branch wraps
the stream, so the spec's exactly-once invariant is clearly the intent and
the unwrapped return a slip. -/
theorem C1_single_successor_store_leak :
    (goGet envSingle "dasboot" "stage0").result = some (Handle.raw descConfig) ∧
    removalsOf (goGet envSingle "dasboot" "stage0").events = [] ∧
    handleCloseRemoves (Handle.raw descConfig) = [] := by
  refine ⟨?_, ?_, rfl⟩ <;>
    simp [goGet, envSingle, removalsOf, handleCloseRemoves]

/-- Claim C2: whenever the copied graph has exactly one successor
descriptor `d` and the remaining steps succeed, `Get` selects `d`
unconditionally — `d` and in particular its media type are arbitrary —
and returns its content stream (`oras_provider.go:203-211`). -/
theorem C2_single_successor_selected (env : GetEnv) (urlPath artifact fsp : String)
    (d : Descriptor)
    (hrepo : env.repositoryOk (repoName urlPath artifact) = true)
    (hmk : env.mkdirTemp = some fsp)
    (hfn : env.fileNew = true)
    (hcp : env.copyOk = true)
    (hsucc : env.successors = some [d])
    (hfetch : env.fetchOk d = true) :
    (goGet env urlPath artifact).result = some (Handle.raw d) := by
  simp [goGet, hrepo, hmk, hfn, hcp, hsucc, hfetch]

/-- Witness for C2 at a concrete single-successor environment whose only
successor is not an image layer. -/
theorem C2_witness :
    (goGet envSingle "dasboot" "stage0").result = some (Handle.raw descConfig) :=
  C2_single_successor_selected envSingle "dasboot" "stage0"
    "/var/tmp/oras-provider-file-store-42" descConfig rfl rfl rfl rfl rfl rfl

/-- Claim C3: with more than one successor, `Get` scans the successor list
in order and selects the first descriptor whose media type equals
`v1.MediaTypeImageLayer` (`oras_provider.go:212-232`); if no successor has
that media type, the result is absent.  The embedding is a pure function
of the successor list, so the choice is deterministic: the split
characterization below pins the selected node uniquely. -/
theorem C3_multi_successor_selection (env : GetEnv) (urlPath artifact fsp : String)
    (nodes : List Descriptor)
    (hlen : 2 ≤ nodes.length)
    (hrepo : env.repositoryOk (repoName urlPath artifact) = true)
    (hmk : env.mkdirTemp = some fsp)
    (hfn : env.fileNew = true)
    (hcp : env.copyOk = true)
    (hsucc : env.successors = some nodes) :
    ((∀ d ∈ nodes, d.mediaType ≠ mediaTypeImageLayer) →
      (goGet env urlPath artifact).result = none) ∧
    (∀ d, nodes.find? (fun x => x.mediaType == mediaTypeImageLayer) = some d →
      d.mediaType = mediaTypeImageLayer ∧
      (∃ l1 l2, nodes = l1 ++ d :: l2 ∧ ∀ b ∈ l1, b.mediaType ≠ mediaTypeImageLayer) ∧
      (env.fetchOk d = true →
        (goGet env urlPath artifact).result = some (Handle.wrapped fsp d))) := by
  obtain ⟨a, b, t, rfl⟩ : ∃ a b t, nodes = a :: b :: t := by
    cases nodes with
    | nil => simp at hlen
    | cons a rest =>
      cases rest with
      | nil => simp at hlen
      | cons b t => exact ⟨a, b, t, rfl⟩
  constructor
  · intro hnone
    have hfind : (a :: b :: t).find? (fun x => x.mediaType == mediaTypeImageLayer) = none := by
      rw [List.find?_eq_none]
      intro x hx
      simpa using hnone x hx
    simp [goGet, hrepo, hmk, hfn, hcp, hsucc, hfind]
  · intro d hfind
    obtain ⟨hpd, l1, l2, heq, hall⟩ := findFirstSplit _ _ d hfind
    refine ⟨by simpa using hpd, ⟨l1, l2, heq, fun x hx => by simpa using hall x hx⟩, ?_⟩
    intro hfetch
    simp [goGet, hrepo, hmk, hfn, hcp, hsucc, hfind, hfetch]

/-- Witness for C3: in a three-successor graph `[manifest, layer, config]`
the image-layer node is selected and returned wrapped. -/
theorem C3_witness :
    (goGet envMulti "dasboot" "stage1").result
      = some (Handle.wrapped "/var/tmp/oras-provider-file-store-43" descLayer) :=
  ((C3_multi_successor_selection envMulti "dasboot" "stage1"
      "/var/tmp/oras-provider-file-store-43" [descManifest, descLayer, descConfig]
      (by decide) rfl rfl rfl rfl rfl).2 descLayer (by decide)).2.2 rfl

/-- Claim C9: when the computed repository name is rejected by the
registry handle (`op.registry.Repository` returns an error,
`oras_provider.go:163-167`), `Get` logs the failure and returns absent;
the event trace shows no temporary directory creation, no graph copy and
no fetch — the remote fetch is never performed. -/
theorem C9_malformed_name_rejected (env : GetEnv) (urlPath artifact : String)
    (h : env.repositoryOk (repoName urlPath artifact) = false) :
    (goGet env urlPath artifact).result = none ∧
    (goGet env urlPath artifact).events
      = [GetEvent.repoResolve (repoName urlPath artifact),
         GetEvent.logError "oras: getting repository reference failed"] := by
  simp [goGet, h]

/-- Witness for C9: `repoName "" ".."` is `..`, which is not a well-formed
repository name; with the registry rejecting it, `Get` returns absent
after only the resolution attempt and the error log. -/
theorem C9_witness :
    (goGet envReject "" "..").result = none ∧
    (goGet envReject "" "..").events
      = [GetEvent.repoResolve (repoName "" ".."),
         GetEvent.logError "oras: getting repository reference failed"] :=
  C9_malformed_name_rejected envReject "" ".." rfl

/-! ## The constructor `Provider` (`oras_provider.go:60-152`)

The constructor checks, in order: empty `fileStoreBasePath`
(line 72-74), `url.Parse` failure (line 77-80), non-`oci` scheme
(line 81-83), and `remote.NewRegistry(url.Host)` failure (line 85-88).
`url.Parse` and `remote.NewRegistry` are external (`net/url`, oras-go)
and appear as environment parameters recording their outcome. -/

/-- The fields of a parsed `net/url.URL` the provider reads. -/
structure GoURL where
  scheme : String
  host : String
  path : String
deriving DecidableEq

/-- Outcomes of the constructor's external calls: `url.Parse` and
`remote.NewRegistry` (`true` = handle created without error). -/
structure ProviderEnv where
  parseURL : String → Option GoURL
  newRegistry : String → Bool

/-- The provider state retained by a successful construction that the
verified claims read. -/
structure OrasProvider where
  url : GoURL
  fileStoreBasePath : String
deriving DecidableEq

/-- `Provider(ctx, registryURL, fileStoreBasePath, ...)`, translated check
for check; each `.error` value names the corresponding `fmt.Errorf`. -/
def goProvider (env : ProviderEnv) (registryURL fileStoreBasePath : String) :
    Except String OrasProvider :=
  if fileStoreBasePath = "" then .error "fileStoreBasePath must not be empty"
  else
    match env.parseURL registryURL with
    | none => .error "parsing registry URL"
    | some u =>
      if u.scheme ≠ "oci" then .error "registry URL must have OCI scheme"
      else if env.newRegistry u.host then .ok { url := u, fileStoreBasePath := fileStoreBasePath }
      else .error "create ORAS client"

/-- An environment exhibiting the fourth construction-time error branch:
the registry URL `oci://[fe80::1%25eth0]` parses (Go's `url.Parse`
percent-decodes the IPv6 zone, yielding host `[fe80::1%eth0]`), but
oras-go's `remote.NewRegistry` rejects that host (its reference validation
round-trips the host through `url.ParseRequestURI`, where the bare `%` is
an invalid escape). -/
def envZone : ProviderEnv :=
  { parseURL := fun s =>
      if s = "oci://[fe80::1%25eth0]" then
        some { scheme := "oci", host := "[fe80::1%eth0]", path := "" }
      else none
    newRegistry := fun h => h != "[fe80::1%eth0]" }

/-- Claim C4 (counterexample): construction fails although the base path
is non-empty, the registry URL parses, and the parsed scheme is `oci` —
because creating the registry client for the URL's host fails
(`oras_provider.go:85-88`), a fourth error condition the claim's
"if and only if" omits. -/
theorem C4_counterexample :
    (goProvider envZone "oci://[fe80::1%25eth0]" "/var/lib/dasboot").isOk = false ∧
    ("/var/lib/dasboot" : String) ≠ "" ∧
    envZone.parseURL "oci://[fe80::1%25eth0]"
      = some { scheme := "oci", host := "[fe80::1%eth0]", path := "" } ∧
    (GoURL.mk "oci" "[fe80::1%eth0]" "").scheme = "oci" := by
  refine ⟨?_, by decide, by decide, rfl⟩
  decide

/-- Claim C4 (amended): construction returns an error if and only if the
file-store base path is empty, the registry URL does not parse, the
parsed scheme is not `oci`, or the registry-client creation for the
parsed URL's host fails; the error is the constructor's own return value
(never deferred to a fetch), and on error no provider is produced. -/
theorem C4_construction_error_conditions (env : ProviderEnv)
    (registryURL fileStoreBasePath : String) :
    (goProvider env registryURL fileStoreBasePath).isOk = false ↔
      fileStoreBasePath = "" ∨ env.parseURL registryURL = none ∨
        (∃ u, env.parseURL registryURL = some u ∧
          (u.scheme ≠ "oci" ∨ env.newRegistry u.host = false)) := by
  unfold goProvider
  by_cases hb : fileStoreBasePath = ""
  · simp [hb, Except.isOk, Except.toBool]
  · rw [if_neg hb]
    match hparse : env.parseURL registryURL with
    | none => simp [Except.isOk, Except.toBool, hb]
    | some u =>
      by_cases hs : u.scheme = "oci"
      · by_cases hr : env.newRegistry u.host
        · simp [hs, hr, Except.isOk, Except.toBool, hb]
        · simp [hs, hr, Except.isOk, Except.toBool, hb]
      · simp [hs, Except.isOk, Except.toBool, hb]

/-! ## The credential callback `creds` (`oras_provider.go:90-102`)

A pure function of the queried target, closed over the provider's four
credential fields. -/

/-- `auth.Credential` from oras-go, with the four fields the provider
fills. -/
structure Credential where
  username : String
  password : String
  accessToken : String
  refreshToken : String
deriving DecidableEq

/-- `auth.EmptyCredential`. -/
def EmptyCredential : Credential :=
  { username := "", password := "", accessToken := "", refreshToken := "" }

/-- The `creds` closure: if any credential field is configured and the
queried target equals the registry URL's host, return the configured
tuple; in every other case fall through to `auth.EmptyCredential`. -/
def creds (username password accessToken refreshToken host target : String) : Credential :=
  if username ≠ "" ∨ password ≠ "" ∨ accessToken ≠ "" ∨ refreshToken ≠ "" then
    if target = host then
      { username := username, password := password
        accessToken := accessToken, refreshToken := refreshToken }
    else EmptyCredential
  else EmptyCredential

/-- Claim C8: the credential resolver returns the configured tuple only
for the registry's own host and the empty credential for every other
target, so configured secrets never flow to an unrelated host.  (When the
target matches, the returned tuple is the configured one also in the
degenerate all-empty configuration, where it coincides with
`auth.EmptyCredential`.) -/
theorem C8_creds_host_gate (username password accessToken refreshToken host target : String) :
    (target ≠ host →
      creds username password accessToken refreshToken host target = EmptyCredential) ∧
    (target = host →
      creds username password accessToken refreshToken host target
        = Credential.mk username password accessToken refreshToken) := by
  constructor
  · intro hne
    unfold creds
    by_cases hcfg : username ≠ "" ∨ password ≠ "" ∨ accessToken ≠ "" ∨ refreshToken ≠ ""
    · rw [if_pos hcfg, if_neg hne]
    · rw [if_neg hcfg]
  · intro heq
    unfold creds
    by_cases hcfg : username ≠ "" ∨ password ≠ "" ∨ accessToken ≠ "" ∨ refreshToken ≠ ""
    · rw [if_pos hcfg, if_pos heq]
    · push_neg at hcfg
      obtain ⟨h1, h2, h3, h4⟩ := hcfg
      rw [if_neg (by push_neg; exact ⟨h1, h2, h3, h4⟩)]
      rw [h1, h2, h3, h4]
      rfl

/-- Witness for C8: a configured credential is withheld from a foreign
host and served to the registry's own host. -/
theorem C8_witness :
    creds "admin" "hunter2" "" "" "reg.example.com" "evil.example.org" = EmptyCredential ∧
    creds "admin" "hunter2" "" "" "reg.example.com" "reg.example.com"
      = Credential.mk "admin" "hunter2" "" "" :=
  ⟨(C8_creds_host_gate "admin" "hunter2" "" "" "reg.example.com" "evil.example.org").1
      (by decide),
    (C8_creds_host_gate "admin" "hunter2" "" "" "reg.example.com" "reg.example.com").2 rfl⟩

/-! ## `orasReadCloser.Close` (`oras_provider.go:241-246`)

```
func (orc *orasReadCloser) Close() error {
    err := orc.rc.Close()
    log.L().Debug("oras: ReadCloser: cleaning up temporary file store path on Close", ...)
    os.RemoveAll(orc.fileStorePath)
    return err
}
```

The underlying stream's close outcome and the removal outcome are
environment inputs; `os.RemoveAll` on a path that does not exist returns a
nil error (documented Go semantics), which is what makes a second `Close`
benign. -/

/-- Go `os.RemoveAll` on the file-store directory: if the directory does
not exist the call succeeds trivially; if it exists, the environment's
`removeErr` decides success (directory gone) or failure (directory
remains).  Returns (error, does-the-directory-still-exist). -/
def goRemoveAll (dirExists : Bool) (removeErr : Option String) : Option String × Bool :=
  if dirExists then (removeErr, removeErr.isSome) else (none, false)

/-- Observable outcome of one `orasReadCloser.Close` call. -/
structure CloseOutcome where
  returned : Option String
  logs : List String
  removeAttempted : Bool
  dirExistsAfter : Bool
deriving DecidableEq

/-- The debug line emitted by `Close` before the removal attempt. -/
def closeDebugLog : String :=
  "oras: ReadCloser: cleaning up temporary file store path on Close"

/-- `orasReadCloser.Close`, translated statement for statement: close the
underlying stream and remember its error; emit the debug log; call
`os.RemoveAll` and DISCARD its result; return the stream's close error. -/
def orasCloserClose (dirExists : Bool) (rcCloseErr removeErr : Option String) : CloseOutcome :=
  let err := rcCloseErr
  let rm := goRemoveAll dirExists removeErr
  { returned := err
    logs := [closeDebugLog]
    removeAttempted := true
    dirExistsAfter := rm.2 }

/-- Claim C5 (counterexample): when the removal fails (directory present,
`os.RemoveAll` fails with a permission error) while the stream closed
cleanly, `Close` returns nil — the failure is not surfaced — but the
emitted log is exactly the one unconditional debug line, identical to the
log of a successful removal: the removal failure is NOT logged
(`os.RemoveAll`'s return value is discarded unread at
`oras_provider.go:244`). -/
theorem C5_removal_failure_not_logged :
    (orasCloserClose true none (some "permission denied")).returned = none ∧
    (orasCloserClose true none (some "permission denied")).logs = [closeDebugLog] ∧
    (orasCloserClose true none (some "permission denied")).logs
      = (orasCloserClose true none none).logs := by
  refine ⟨rfl, rfl, rfl⟩

/-- Claim C5 (amended): `Close` first closes the underlying stream and
returns exactly that close error to its caller; it then attempts to
remove the Temporary File Store directory tree, and a failure of that
removal is never returned as an error from `Close` — the removal's error
value is discarded (an unconditional debug message is emitted before the
attempt, but the failure itself is not logged). -/
theorem C5_close_error_propagation (dirExists : Bool) (rcCloseErr removeErr : Option String) :
    (orasCloserClose dirExists rcCloseErr removeErr).returned = rcCloseErr ∧
    (orasCloserClose dirExists rcCloseErr removeErr).removeAttempted = true ∧
    (orasCloserClose dirExists rcCloseErr removeErr).logs = [closeDebugLog] := by
  refine ⟨rfl, rfl, rfl⟩

/-- Claim C6: double close is safe.  After a first `Close` whose removal
succeeded, the directory is gone; a second `Close` finds `os.RemoveAll` on
the non-existent path succeeding with a nil error (Go semantics), leaves
the directory state unchanged (no double free), and returns only the
underlying stream's second close result — never an error from the removal
of the already-removed directory.  (The model is a total function: the
second call cannot crash.) -/
theorem C6_double_close_safe (rcCloseErr1 rcCloseErr2 removeErr2 : Option String) :
    (orasCloserClose true rcCloseErr1 none).dirExistsAfter = false ∧
    goRemoveAll (orasCloserClose true rcCloseErr1 none).dirExistsAfter removeErr2
      = (none, false) ∧
    (orasCloserClose (orasCloserClose true rcCloseErr1 none).dirExistsAfter
        rcCloseErr2 removeErr2).returned = rcCloseErr2 ∧
    (orasCloserClose (orasCloserClose true rcCloseErr1 none).dirExistsAfter
        rcCloseErr2 removeErr2).dirExistsAfter = false := by
  refine ⟨rfl, rfl, rfl, rfl⟩
